import Mathlib

/-!
Shallow embedding of the resilient harvesting core of `scrapedin`:

* `robust_navigate` (src/scrapedin/scrapers/utils.py, lines 219-259): the
  navigation retry state machine with classified backoff.
* `scrape_employees` (src/scrapedin/scrapers/company/get_employees.py): the
  incremental convergence harvester for company employee lists.
* `JobScraper.search` (src/scrapedin/scrapers/job/get_job.py): the pagination
  harvester for job-search results.

Browser effects (navigation outcomes, DOM extraction results, button
visibility) are supplied as explicit per-attempt / per-round scripts, and the
external pydantic `HttpUrl` validator as a boolean oracle, so every function
below is executable Lean translated clause-by-clause from the Python source.
-/

namespace Scrapedin

/-- The result of `str(e)` plus whether the raised exception is an instance of
playwright's `Error` class (the only class caught by `except Error as e` in
`robust_navigate`).  An exception with `isPlaywrightError = false` is not
caught by the retry loop at all and propagates out on the spot. -/
structure NavError where
  isPlaywrightError : Bool
  msg : String
deriving DecidableEq, Repr

/-- Does `pat` occur as a contiguous run inside `hay`? -/
def infixAux (pat : List Char) : List Char → Bool
  | [] => pat.isEmpty
  | c :: cs => pat.isPrefixOf (c :: cs) || infixAux pat cs

/-- Substring test, modelling Python's `"..." in str(e)`. -/
def containsSub (hay pat : String) : Bool :=
  infixAux pat.toList hay.toList

/-- Classification used by `robust_navigate`:
`"net::ERR_HTTP_RESPONSE_CODE_FAILURE" in str(e)` inside the
`except Error as e` handler, i.e. a playwright `Error` whose message contains
the rate-limit sentinel. -/
def isRateLimited (e : NavError) : Bool :=
  e.isPlaywrightError && containsSub e.msg "net::ERR_HTTP_RESPONSE_CODE_FAILURE"

/-- What one navigation attempt (the `try:` body: pre-sleep, `page.goto`,
`page.wait_for_selector`, post-sleep) does in the scripted browser. -/
inductive AttemptOutcome where
  | success
  | failure (e : NavError)
deriving DecidableEq, Repr

/-- `max_retries = 5` in `robust_navigate`. -/
def max_retries : Nat := 5

/-- `base_wait_time = 10` in `robust_navigate` (seconds, modelled in ℚ). -/
def base_wait_time : ℚ := 10

/-- `(base_wait_time ** (attempt + 1)) + random.uniform(0, 5)`: the backoff
slept after a rate-limited attempt (0-indexed `attempt`), with jitter `j`. -/
def rateLimitBackoff (attempt : Nat) (j : ℚ) : ℚ :=
  base_wait_time ^ (attempt + 1) + j

/-- `time.sleep(base_wait_time)`: the fixed backoff slept after any other
caught (transient) error, the same for every attempt. -/
def transientBackoff (_attempt : Nat) : ℚ :=
  base_wait_time

/-- How a `robust_navigate` call ends. -/
inductive NavResult where
  /-- the `return` inside the `try:`, after `attemptsUsed` attempts. -/
  | ok (attemptsUsed : Nat)
  /-- an exception surfaced to the caller (either `raise e` in the handler or
  an uncaught non-playwright exception), after `attemptsUsed` attempts. -/
  | raised (e : NavError) (attemptsUsed : Nat)
  /-- the `raise PlaywrightTimeoutError(...)` placed after the `for` loop. -/
  | fallbackTimeout
deriving DecidableEq, Repr

/-- The `for attempt in range(max_retries):` loop of `robust_navigate`.
`outcome k` scripts attempt `k`, `jitter k` the `random.uniform(0, 5)` draw
used in the backoff after attempt `k`; `remaining` counts the loop iterations
left (`max_retries - attempt` at the top-level call).  Returns the result
together with the list of backoff sleeps performed, in order (the human-like
`random.uniform` sleeps inside the `try:` body are not backoff and are not
tracked). -/
def navLoop (outcome : Nat → AttemptOutcome) (jitter : Nat → ℚ) :
    Nat → Nat → NavResult × List ℚ
  | _, 0 => (NavResult.fallbackTimeout, [])
  | attempt, r + 1 =>
    match outcome attempt with
    | AttemptOutcome.success => (NavResult.ok (attempt + 1), [])
    | AttemptOutcome.failure e =>
      if isRateLimited e then
        if attempt < max_retries - 1 then
          let w := rateLimitBackoff attempt (jitter attempt)
          let rest := navLoop outcome jitter (attempt + 1) r
          (rest.1, w :: rest.2)
        else (NavResult.raised e (attempt + 1), [])
      else if e.isPlaywrightError then
        if attempt < max_retries - 1 then
          let rest := navLoop outcome jitter (attempt + 1) r
          (rest.1, transientBackoff attempt :: rest.2)
        else (NavResult.raised e (attempt + 1), [])
      else
        (NavResult.raised e (attempt + 1), [])

/-- `robust_navigate(page, url, wait_for_selector)` with the browser replaced
by the attempt script `outcome` and the backoff jitter stream `jitter`. -/
def robust_navigate (outcome : Nat → AttemptOutcome) (jitter : Nat → ℚ) :
    NavResult × List ℚ :=
  navLoop outcome jitter 0 max_retries

example :
    robust_navigate (fun _ => AttemptOutcome.success) (fun _ => 0) =
      (NavResult.ok 1, []) := by rfl

example :
    robust_navigate
      (fun k => if k < 2 then
          AttemptOutcome.failure ⟨true, "timeout"⟩ else AttemptOutcome.success)
      (fun _ => 0) = (NavResult.ok 3, [10, 10]) := by
  decide

example :
    robust_navigate
      (fun _ => AttemptOutcome.failure
        ⟨true, "net::ERR_HTTP_RESPONSE_CODE_FAILURE at url"⟩)
      (fun _ => 1) =
      (NavResult.raised ⟨true, "net::ERR_HTTP_RESPONSE_CODE_FAILURE at url"⟩ 5,
        [11, 101, 1001, 10001]) := by
  have h : isRateLimited ⟨true, "net::ERR_HTTP_RESPONSE_CODE_FAILURE at url"⟩ = true := by
    decide
  simp [robust_navigate, navLoop, max_retries, h, rateLimitBackoff, base_wait_time]
  norm_num

/-! ### Employee harvester (`scrape_employees`) -/

/-- One candidate produced by the in-page extraction script of
`scrape_employees` (the `page.evaluate` call): `url` is already
query-stripped by `.split('?')[0]` inside the page script. -/
structure EmpCandidate where
  name : String
  position : Option String
  url : String
deriving DecidableEq, Repr

/-- The `Employee` pydantic model (src/scrapedin/models/company.py); every
field is `Optional`. -/
structure Employee where
  name : Option String
  position : Option String
  profile_url : Option String
deriving DecidableEq, Repr

/-- The `Employee(name=..., position=..., profile_url=HttpUrl(...))`
construction at get_employees.py:80, given that `HttpUrl` accepted the url. -/
def mkEmployee (c : EmpCandidate) : Employee :=
  ⟨some c.name, c.position, some c.url⟩

/-- The body of `for data in employee_data_list:` (get_employees.py:74-88):
skip when the url was already seen or the name contains "LinkedIn Member";
otherwise construct the `Employee` — `urlValid` tells whether `HttpUrl(url)`
succeeds; on failure the `except Exception: continue` discards the candidate —
and append it, recording the url as seen. -/
def empStep (urlValid : String → Bool) (st : List Employee × List String)
    (c : EmpCandidate) : List Employee × List String :=
  if c.url ∉ st.2 ∧ containsSub c.name "LinkedIn Member" = false then
    if urlValid c.url then
      (st.1 ++ [mkEmployee c], st.2 ++ [c.url])
    else st
  else st

/-- Processing one round's extracted candidate list in order. -/
def empRoundFold (urlValid : String → Bool) (st : List Employee × List String)
    (cs : List EmpCandidate) : List Employee × List String :=
  cs.foldl (empStep urlValid) st

/-- What the "Show more" click attempt at the end of a round does
(get_employees.py:95-103): the button is visible and clicked, or it is not
visible (`break`), or locating/clicking raises (`except Exception: break`). -/
inductive AdvanceOutcome where
  | clicked
  | notVisible
  | errored
deriving DecidableEq, Repr

/-- The scripted browser behaviour for one round of the `while True:` loop:
what the extraction script returns after the scroll, and what the
"Show more" button does afterwards. -/
structure EmpRound where
  extraction : List EmpCandidate
  showMore : AdvanceOutcome
deriving Repr

/-- The `while True:` convergence loop of `scrape_employees`
(get_employees.py:54-105).  Each round: record `last_count`, scroll and
extract (`r.extraction`), fold the dedup/append pass, `break` if no new
employee was accepted, otherwise attempt the "Show more" click and `break`
unless it was visible and clicked.  Returns the accepted records and the
number of rounds run, or `none` when the round script is exhausted with the
loop still running. -/
def empHarvest (urlValid : String → Bool) :
    List EmpRound → List Employee → List String → Nat →
    Option (List Employee × Nat)
  | [], _, _, _ => none
  | r :: rest, records, seen, n =>
    let last_count := records.length
    let st := empRoundFold urlValid (records, seen) r.extraction
    if st.1.length = last_count then some (st.1, n + 1)
    else
      match r.showMore with
      | AdvanceOutcome.clicked => empHarvest urlValid rest st.1 st.2 (n + 1)
      | AdvanceOutcome.notVisible => some (st.1, n + 1)
      | AdvanceOutcome.errored => some (st.1, n + 1)

/-- Outcome of a scripted bounded wait (a playwright call that either
completes or raises `PlaywrightTimeoutError`). -/
inductive StepOutcome where
  | ok
  | timeout
deriving DecidableEq, Repr

/-- `scrape_employees(page, keyword)` (get_employees.py:13-105) with the
browser scripted: `searchStep` is the keyword search block (fill, press
Enter, `wait_for_url`), only run when a keyword is given, whose
`PlaywrightTimeoutError` handler returns the empty list; `containerStep` is
the `wait_for_selector` on the employee list container, whose timeout also
returns the empty list; then the convergence loop runs on `rounds`.
The returned `Nat` counts loop rounds executed (0 when the loop never ran). -/
def scrape_employees (urlValid : String → Bool) (keyword : Option String)
    (searchStep containerStep : StepOutcome) (rounds : List EmpRound) :
    Option (List Employee × Nat) :=
  match keyword with
  | some _ =>
    match searchStep with
    | StepOutcome.timeout => some ([], 0)
    | StepOutcome.ok =>
      match containerStep with
      | StepOutcome.timeout => some ([], 0)
      | StepOutcome.ok => empHarvest urlValid rounds [] [] 0
  | none =>
    match containerStep with
    | StepOutcome.timeout => some ([], 0)
    | StepOutcome.ok => empHarvest urlValid rounds [] [] 0

/-! ### Job-search harvester (`JobScraper.search`) -/

/-- One candidate produced by the in-page extraction script of
`JobScraper.search` (get_job.py:155-173); `url` is the raw `href`. -/
structure JobCandidate where
  url : String
  title : String
  company : Option String
  location : Option String
  posted_date : Option String
deriving DecidableEq, Repr

/-- The maximal run of decimal digits at the head of the list, and the rest. -/
def digitsPrefix : List Char → List Char × List Char
  | [] => ([], [])
  | c :: cs =>
    if c.isDigit then
      let p := digitsPrefix cs
      (c :: p.1, p.2)
    else ([], c :: cs)

/-- Try to match `/jobs/view/(\d+)/` at the head of `l`: the literal
`/jobs/view/`, then one or more digits, then `/`. -/
def matchJobsView (l : List Char) : Option String :=
  if "/jobs/view/".toList.isPrefixOf l then
    let rest := l.drop "/jobs/view/".toList.length
    let p := digitsPrefix rest
    match p.1, p.2 with
    | [], _ => none
    | ds, '/' :: _ => some (String.mk ds)
    | _, _ => none
  else none

/-- Leftmost-match scan over the string. -/
def findJobIdAux : List Char → Option String
  | [] => none
  | c :: cs =>
    match matchJobsView (c :: cs) with
    | some s => some s
    | none => findJobIdAux cs

/-- `re.search(r"/jobs/view/(\d+)/", url)` followed by `.group(1)`
(get_job.py:177-178): the digits of the leftmost occurrence, or `None`. -/
def findJobId (url : String) : Option String :=
  findJobIdAux url.toList

/-- `url.split('?')[0]`. -/
def stripQuery (s : String) : String :=
  String.mk (s.toList.takeWhile (fun c => c ≠ '?'))

/-- The `Job` pydantic model as constructed at get_job.py:183-193 (the model
file itself is not part of the harvested sources; the fields are those passed
at the construction site, with `num_applicants` explicitly `None`). -/
structure Job where
  job_id : String
  linkedin_url : String
  title : String
  company : Option String
  location : Option String
  posted_date : Option String
  num_applicants : Option Nat
deriving DecidableEq, Repr

/-- The `Job(...)` construction at get_job.py:183-193. -/
def mkJob (c : JobCandidate) (id : String) : Job :=
  ⟨id, "https://www.linkedin.com" ++ stripQuery c.url, c.title, c.company,
    c.location, c.posted_date, none⟩

/-- The body of `for data in job_data_list:` (get_job.py:175-197): extract
the job id from the url; `continue` when there is none or it was already
seen; otherwise construct the `Job` — `jobOk` tells whether the pydantic
construction (notably `HttpUrl`) succeeds; on failure the
`except Exception: continue` discards the candidate — and append it,
recording the id as seen. -/
def jobStep (jobOk : JobCandidate → Bool) (st : List Job × List String)
    (c : JobCandidate) : List Job × List String :=
  match findJobId c.url with
  | none => st
  | some id =>
    if id ∈ st.2 then st
    else if jobOk c then (st.1 ++ [mkJob c id], st.2 ++ [id])
    else st

/-- Processing one round's extracted job list in order. -/
def jobRoundFold (jobOk : JobCandidate → Bool) (st : List Job × List String)
    (cs : List JobCandidate) : List Job × List String :=
  cs.foldl (jobStep jobOk) st

/-- The scripted browser behaviour for one round of the job-search loop:
the extraction result, and whether the pagination "next" click succeeded
(`next_button.is_visible() and next_button.is_enabled()`, the click and the
load wait all fine) — any falsity or exception there is a `break`. -/
structure JobRound where
  extraction : List JobCandidate
  nextOk : Bool
deriving Repr

/-- The `while True:` loop of `JobScraper.search` (get_job.py:149-211).
Each round: scroll, extract (`r.extraction`), fold the dedup/append pass,
then click the pagination "next" button — `break` returning the records
unless visible, enabled and clickable.  There is no
no-new-records test in this loop.  Returns the records and the number of
rounds run, or `none` when the round script is exhausted. -/
def jobHarvest (jobOk : JobCandidate → Bool) :
    List JobRound → List Job → List String → Nat → Option (List Job × Nat)
  | [], _, _, _ => none
  | r :: rest, records, seen, n =>
    let st := jobRoundFold jobOk (records, seen) r.extraction
    if r.nextOk then jobHarvest jobOk rest st.1 st.2 (n + 1)
    else some (st.1, n + 1)

/-- `JobScraper.search` (get_job.py:29-211) with the browser scripted:
`filterBlock` is the search-and-filter `try:` (get_job.py:49-139) whose
`except Exception` returns the empty list; `listStep` is the
`wait_for_selector` on the results list whose timeout also returns the empty
list; then the pagination loop runs on `rounds`. -/
def jobSearch (jobOk : JobCandidate → Bool)
    (filterBlock listStep : StepOutcome) (rounds : List JobRound) :
    Option (List Job × Nat) :=
  match filterBlock with
  | StepOutcome.timeout => some ([], 0)
  | StepOutcome.ok =>
    match listStep with
    | StepOutcome.timeout => some ([], 0)
    | StepOutcome.ok => jobHarvest jobOk rounds [] [] 0

/-! ## Helper lemmas for the navigation retry machine -/

lemma ten_le_pow_succ (k : Nat) : (10 : ℚ) ≤ 10 ^ (k + 1) := by
  calc (10 : ℚ) = 10 ^ 1 := (pow_one _).symm
    _ ≤ 10 ^ (k + 1) := by
      apply pow_le_pow_right₀ (by norm_num) (by omega)

/-- The backoff after a later rate-limited attempt beats the backoff after an
earlier one, whatever jitters were drawn in `[0, 5]`. -/
lemma rateLimitBackoff_lt (k : Nat) {j j' : ℚ} (hj : j ≤ 5) (hj' : 0 ≤ j') :
    rateLimitBackoff k j < rateLimitBackoff (k + 1) j' := by
  unfold rateLimitBackoff base_wait_time
  nlinarith [ten_le_pow_succ k, pow_succ (10 : ℚ) (k + 1)]

/-- Any call of the retry loop that still has iterations left either returns
success recorded on some attempt, or re-raises the error recorded on some
attempt — never the post-loop fallback — as long as the iteration budget
matches `max_retries`. -/
lemma navLoop_result_sound (outcome : Nat → AttemptOutcome) (jitter : Nat → ℚ) :
    ∀ r attempt, attempt + r = max_retries → 0 < r →
      (navLoop outcome jitter attempt r).1 ≠ NavResult.fallbackTimeout
      ∧ (∀ n, (navLoop outcome jitter attempt r).1 = NavResult.ok n →
          attempt < n ∧ n ≤ max_retries ∧ outcome (n - 1) = AttemptOutcome.success)
      ∧ (∀ e n, (navLoop outcome jitter attempt r).1 = NavResult.raised e n →
          attempt < n ∧ n ≤ max_retries ∧
            outcome (n - 1) = AttemptOutcome.failure e) := by
  intro r
  induction r with
  | zero => intro attempt _ h; omega
  | succ r ih =>
    intro attempt hsum _
    have hle : attempt ≤ max_retries - 1 := by unfold max_retries at *; omega
    cases hout : outcome attempt with
    | success =>
      refine ⟨by simp [navLoop, hout], ?_, ?_⟩
      · intro n hn
        simp only [navLoop, hout] at hn
        cases hn
        refine ⟨Nat.lt_succ_self _, by unfold max_retries at *; omega, ?_⟩
        simpa using hout
      · intro e n hn
        simp only [navLoop, hout] at hn
        cases hn
    | failure e =>
      by_cases hrl : isRateLimited e = true
      · by_cases hlt : attempt < max_retries - 1
        · have hr : 0 < r := by unfold max_retries at *; omega
          have ihh := ih (attempt + 1) (by omega) hr
          have heq : (navLoop outcome jitter attempt (r + 1)).1 =
              (navLoop outcome jitter (attempt + 1) r).1 := by
            simp [navLoop, hout, hrl, hlt]
          rw [heq]
          exact ⟨ihh.1,
            fun n hn => ⟨by have := (ihh.2.1 n hn).1; omega, (ihh.2.1 n hn).2⟩,
            fun e' n hn => ⟨by have := (ihh.2.2 e' n hn).1; omega,
              (ihh.2.2 e' n hn).2⟩⟩
        · refine ⟨by simp [navLoop, hout, hrl, hlt], ?_, ?_⟩
          · intro n hn
            simp only [navLoop, hout, hrl, if_true, hlt, if_false] at hn
            cases hn
          · intro e' n hn
            simp only [navLoop, hout, hrl, if_true, hlt, if_false] at hn
            cases hn
            refine ⟨Nat.lt_succ_self _, by unfold max_retries at *; omega, ?_⟩
            simpa using hout
      · by_cases hpe : e.isPlaywrightError = true
        · by_cases hlt : attempt < max_retries - 1
          · have hr : 0 < r := by unfold max_retries at *; omega
            have ihh := ih (attempt + 1) (by omega) hr
            have heq : (navLoop outcome jitter attempt (r + 1)).1 =
                (navLoop outcome jitter (attempt + 1) r).1 := by
              simp [navLoop, hout, hrl, hpe, hlt]
            rw [heq]
            exact ⟨ihh.1,
              fun n hn => ⟨by have := (ihh.2.1 n hn).1; omega, (ihh.2.1 n hn).2⟩,
              fun e' n hn => ⟨by have := (ihh.2.2 e' n hn).1; omega,
                (ihh.2.2 e' n hn).2⟩⟩
          · refine ⟨by simp [navLoop, hout, hrl, hpe, hlt], ?_, ?_⟩
            · intro n hn
              simp only [navLoop, hout, hrl, hpe, hlt] at hn
              simp at hn
            · intro e' n hn
              simp only [navLoop, hout, hrl, hpe, hlt] at hn
              simp only [Bool.false_eq_true, if_false, if_true] at hn
              cases hn
              refine ⟨Nat.lt_succ_self _, by unfold max_retries at *; omega, ?_⟩
              simpa using hout
        · have hpe' : e.isPlaywrightError = false := by
            revert hpe; cases e.isPlaywrightError <;> simp
          refine ⟨by simp [navLoop, hout, hrl, hpe'], ?_, ?_⟩
          · intro n hn
            simp only [navLoop, hout, hrl, hpe'] at hn
            simp at hn
          · intro e' n hn
            simp only [navLoop, hout, hrl, hpe'] at hn
            simp only [Bool.false_eq_true, if_false] at hn
            cases hn
            refine ⟨Nat.lt_succ_self _, by unfold max_retries at *; omega, ?_⟩
            simpa using hout

/-! ## Claim theorems: navigation retry machine -/

/-- C3: in `robust_navigate`, the backoff slept before retry `k` after a
rate-limited failure is `base_wait_time ^ k` plus the jitter drawn in
`[0, 5]`, so for every choice of jitters the sleep before attempt `k + 1` is
strictly greater than the sleep before attempt `k`; after a transient failure
the backoff is the fixed `base_wait_time`, identical across attempts.  The
last two conjuncts tie the two formulas to the sleep the retry loop actually
performs after a failing attempt. -/
theorem backoff_growth :
    (∀ (k : Nat) (j j' : ℚ), 0 ≤ j → j ≤ 5 → 0 ≤ j' → j' ≤ 5 →
      rateLimitBackoff k j < rateLimitBackoff (k + 1) j')
    ∧ (∀ k k' : Nat, transientBackoff k = transientBackoff k')
    ∧ (∀ (outcome : Nat → AttemptOutcome) (jitter : Nat → ℚ)
        (attempt r : Nat) (e : NavError),
        outcome attempt = AttemptOutcome.failure e → isRateLimited e = true →
        attempt < max_retries - 1 →
        (navLoop outcome jitter attempt (r + 1)).2.head? =
          some (rateLimitBackoff attempt (jitter attempt)))
    ∧ (∀ (outcome : Nat → AttemptOutcome) (jitter : Nat → ℚ)
        (attempt r : Nat) (e : NavError),
        outcome attempt = AttemptOutcome.failure e → isRateLimited e = false →
        e.isPlaywrightError = true → attempt < max_retries - 1 →
        (navLoop outcome jitter attempt (r + 1)).2.head? =
          some (transientBackoff attempt)) := by
  refine ⟨fun k j j' _ hj hj' _ => rateLimitBackoff_lt k hj hj',
    fun _ _ => rfl, ?_, ?_⟩
  · intro outcome jitter attempt r e hout hrl hlt
    simp [navLoop, hout, hrl, hlt]
  · intro outcome jitter attempt r e hout hrl hpe hlt
    simp [navLoop, hout, hrl, hpe, hlt]

/-- C3 witness: the first two rate-limit backoffs at extreme jitters, and the
transient backoff at two different attempts. -/
theorem backoff_growth_witness :
    rateLimitBackoff 0 5 < rateLimitBackoff 1 0 ∧
      transientBackoff 0 = transientBackoff 3 ∧
      (navLoop (fun _ => AttemptOutcome.failure ⟨true, "x net::ERR_HTTP_RESPONSE_CODE_FAILURE y"⟩)
        (fun _ => 2) 0 (4 + 1)).2.head? = some (rateLimitBackoff 0 2) ∧
      (navLoop (fun _ => AttemptOutcome.failure ⟨true, "Timeout 15000ms exceeded"⟩)
        (fun _ => 2) 0 (4 + 1)).2.head? = some (transientBackoff 0) :=
  ⟨backoff_growth.1 0 5 0 (by decide) (by decide) (by decide) (by decide),
    backoff_growth.2.1 0 3,
    backoff_growth.2.2.1 _ _ 0 4 _ rfl (by decide) (by decide),
    backoff_growth.2.2.2 _ _ 0 4 _ rfl (by decide) (by decide) (by decide)⟩

/-- C4: a navigation attempt that fails with an exception that is not a
playwright `Error` (the only class the retry handler catches — the code's
fatal category) propagates at once: no backoff sleep is recorded and no
further attempt is made, at whatever attempt it first occurs. -/
theorem fatal_raises_immediately :
    (∀ (outcome : Nat → AttemptOutcome) (jitter : Nat → ℚ) (e : NavError),
      outcome 0 = AttemptOutcome.failure e → e.isPlaywrightError = false →
      robust_navigate outcome jitter = (NavResult.raised e 1, []))
    ∧ (∀ (outcome : Nat → AttemptOutcome) (jitter : Nat → ℚ)
        (attempt r : Nat) (e : NavError),
        outcome attempt = AttemptOutcome.failure e → e.isPlaywrightError = false →
        navLoop outcome jitter attempt (r + 1) =
          (NavResult.raised e (attempt + 1), [])) := by
  have key : ∀ (outcome : Nat → AttemptOutcome) (jitter : Nat → ℚ)
      (attempt r : Nat) (e : NavError),
      outcome attempt = AttemptOutcome.failure e → e.isPlaywrightError = false →
      navLoop outcome jitter attempt (r + 1) =
        (NavResult.raised e (attempt + 1), []) := by
    intro outcome jitter attempt r e hout hpe
    have hrl : isRateLimited e = false := by simp [isRateLimited, hpe]
    simp [navLoop, hout, hrl, hpe]
  exact ⟨fun outcome jitter e hout hpe =>
    key outcome jitter 0 4 e hout hpe, key⟩

/-- C4 witness: a non-playwright exception on the very first attempt. -/
theorem fatal_raises_immediately_witness :
    robust_navigate (fun _ => AttemptOutcome.failure ⟨false, "TypeError"⟩)
        (fun _ => 0) =
      (NavResult.raised ⟨false, "TypeError"⟩ 1, []) :=
  fatal_raises_immediately.1 _ _ ⟨false, "TypeError"⟩ rfl rfl

/-- C7: when every attempt fails rate-limited, `robust_navigate` performs
exactly `max_retries = 5` attempts, sleeps exactly the 4 backoff intervals
`rateLimitBackoff 0 .. 3`, which strictly increase for any jitters drawn in
`[0, 5]`, and re-raises the rate-limit error. -/
theorem rate_limited_exhaustion :
    ∀ (e : NavError) (jitter : Nat → ℚ),
      isRateLimited e = true → (∀ i, 0 ≤ jitter i ∧ jitter i ≤ 5) →
      robust_navigate (fun _ => AttemptOutcome.failure e) jitter =
        (NavResult.raised e 5,
          [rateLimitBackoff 0 (jitter 0), rateLimitBackoff 1 (jitter 1),
            rateLimitBackoff 2 (jitter 2), rateLimitBackoff 3 (jitter 3)])
      ∧ List.Chain' (· < ·)
          [rateLimitBackoff 0 (jitter 0), rateLimitBackoff 1 (jitter 1),
            rateLimitBackoff 2 (jitter 2), rateLimitBackoff 3 (jitter 3)] := by
  intro e jitter hrl hj
  constructor
  · show navLoop _ _ 0 max_retries = _
    simp [navLoop, hrl, max_retries]
  · simp only [List.chain'_cons, List.chain'_singleton, and_true]
    exact ⟨rateLimitBackoff_lt 0 (hj 0).2 (hj 1).1,
      rateLimitBackoff_lt 1 (hj 1).2 (hj 2).1,
      rateLimitBackoff_lt 2 (hj 2).2 (hj 3).1⟩

/-- C7 witness: the concrete rate-limit error with zero jitter. -/
theorem rate_limited_exhaustion_witness :
    robust_navigate
        (fun _ => AttemptOutcome.failure
          ⟨true, "net::ERR_HTTP_RESPONSE_CODE_FAILURE"⟩) (fun _ => 0) =
      (NavResult.raised ⟨true, "net::ERR_HTTP_RESPONSE_CODE_FAILURE"⟩ 5,
        [rateLimitBackoff 0 0, rateLimitBackoff 1 0,
          rateLimitBackoff 2 0, rateLimitBackoff 3 0])
      ∧ List.Chain' (· < ·)
          [rateLimitBackoff 0 0, rateLimitBackoff 1 0,
            rateLimitBackoff 2 0, rateLimitBackoff 3 0] :=
  rate_limited_exhaustion ⟨true, "net::ERR_HTTP_RESPONSE_CODE_FAILURE"⟩
    (fun _ => 0) (by decide)
    (fun _ => (by decide : (0 : ℚ) ≤ 0 ∧ (0 : ℚ) ≤ 5))

/-- C10: `robust_navigate` either returns success recorded on one of the
first 5 attempts, or re-raises, from inside the retry loop, the error of the
attempt it stopped at; the fallback timeout raise placed after the loop is
unreachable. -/
theorem fallback_unreachable :
    ∀ (outcome : Nat → AttemptOutcome) (jitter : Nat → ℚ),
      (robust_navigate outcome jitter).1 ≠ NavResult.fallbackTimeout
      ∧ (∀ n, (robust_navigate outcome jitter).1 = NavResult.ok n →
          1 ≤ n ∧ n ≤ max_retries ∧ outcome (n - 1) = AttemptOutcome.success)
      ∧ (∀ e n, (robust_navigate outcome jitter).1 = NavResult.raised e n →
          1 ≤ n ∧ n ≤ max_retries ∧
            outcome (n - 1) = AttemptOutcome.failure e) :=
  fun outcome jitter =>
    navLoop_result_sound outcome jitter max_retries 0 rfl (by decide)

/-- C10 witness: a run that succeeds on the first attempt. -/
theorem fallback_unreachable_witness :
    1 ≤ 1 ∧ 1 ≤ max_retries ∧
      (fun _ => AttemptOutcome.success) (1 - 1) = AttemptOutcome.success :=
  (fallback_unreachable (fun _ => AttemptOutcome.success) (fun _ => 0)).2.1 1 rfl

/-! ## Helper lemmas for the harvesters -/

/-- Dedup invariant of the employee loop: record keys are pairwise distinct
and every accepted record's url is registered in the seen set. -/
def empInv (st : List Employee × List String) : Prop :=
  (st.1.map Employee.profile_url).Nodup ∧
    ∀ r ∈ st.1, ∃ u ∈ st.2, r.profile_url = some u

lemma empStep_inv (uv : String → Bool) (st : List Employee × List String)
    (c : EmpCandidate) (h : empInv st) : empInv (empStep uv st c) := by
  unfold empStep
  split
  · rename_i hcond
    split
    · refine ⟨?_, ?_⟩
      · simp only [List.map_append, mkEmployee, List.map_cons, List.map_nil]
        rw [List.nodup_append]
        refine ⟨h.1, List.nodup_singleton _, ?_⟩
        intro a ha hb
        simp only [List.mem_singleton] at hb
        subst hb
        obtain ⟨r, hr, hru⟩ := List.mem_map.mp ha
        obtain ⟨u, hu, hru'⟩ := h.2 r hr
        rw [hru] at hru'
        cases hru'
        exact hcond.1 hu
      · intro r hr
        rcases List.mem_append.mp hr with hl | hl
        · obtain ⟨u, hu, hru⟩ := h.2 r hl
          exact ⟨u, List.mem_append.mpr (Or.inl hu), hru⟩
        · simp only [List.mem_singleton] at hl
          subst hl
          exact ⟨c.url, List.mem_append.mpr (Or.inr (List.mem_singleton_self _)),
            rfl⟩
    · exact h
  · exact h

lemma empFold_inv (uv : String → Bool) :
    ∀ (cs : List EmpCandidate) (st : List Employee × List String),
      empInv st → empInv (empRoundFold uv st cs) := by
  intro cs
  induction cs with
  | nil => intro st h; exact h
  | cons c cs ih =>
    intro st h
    exact ih (empStep uv st c) (empStep_inv uv st c h)

lemma empHarvest_nodup (uv : String → Bool) :
    ∀ (rounds : List EmpRound) (recs : List Employee) (seen : List String)
      (n : Nat) (out : List Employee) (m : Nat),
      empInv (recs, seen) → empHarvest uv rounds recs seen n = some (out, m) →
      (out.map Employee.profile_url).Nodup := by
  intro rounds
  induction rounds with
  | nil => intro recs seen n out m _ h; simp [empHarvest] at h
  | cons r rest ih =>
    intro recs seen n out m hinv h
    have hinv' : empInv (empRoundFold uv (recs, seen) r.extraction) :=
      empFold_inv uv r.extraction (recs, seen) hinv
    simp only [empHarvest] at h
    by_cases hlen :
        (empRoundFold uv (recs, seen) r.extraction).1.length = recs.length
    · rw [if_pos hlen] at h
      cases h
      exact hinv'.1
    · rw [if_neg hlen] at h
      cases hsm : r.showMore
      all_goals rw [hsm] at h
      · exact ih _ _ (n + 1) out m hinv' h
      · cases h; exact hinv'.1
      · cases h; exact hinv'.1

/-- Dedup invariant of the job loop. -/
def jobInv (st : List Job × List String) : Prop :=
  (st.1.map Job.job_id).Nodup ∧ ∀ r ∈ st.1, r.job_id ∈ st.2

lemma jobStep_inv (jobOk : JobCandidate → Bool) (st : List Job × List String)
    (c : JobCandidate) (h : jobInv st) : jobInv (jobStep jobOk st c) := by
  cases hfi : findJobId c.url with
  | none => simpa only [jobStep, hfi] using h
  | some id =>
    simp only [jobStep, hfi]
    split
    · exact h
    · rename_i hni
      split
      · refine ⟨?_, ?_⟩
        · simp only [List.map_append, mkJob, List.map_cons, List.map_nil]
          rw [List.nodup_append]
          refine ⟨h.1, List.nodup_singleton _, ?_⟩
          intro a ha hb
          simp only [List.mem_singleton] at hb
          subst hb
          obtain ⟨r, hr, hru⟩ := List.mem_map.mp ha
          exact hni (hru ▸ h.2 r hr)
        · intro r hr
          rcases List.mem_append.mp hr with hl | hl
          · exact List.mem_append.mpr (Or.inl (h.2 r hl))
          · simp only [List.mem_singleton] at hl
            subst hl
            exact List.mem_append.mpr (Or.inr (List.mem_singleton_self _))
      · exact h

lemma jobFold_inv (jobOk : JobCandidate → Bool) :
    ∀ (cs : List JobCandidate) (st : List Job × List String),
      jobInv st → jobInv (jobRoundFold jobOk st cs) := by
  intro cs
  induction cs with
  | nil => intro st h; exact h
  | cons c cs ih =>
    intro st h
    exact ih (jobStep jobOk st c) (jobStep_inv jobOk st c h)

lemma jobHarvest_nodup (jobOk : JobCandidate → Bool) :
    ∀ (rounds : List JobRound) (recs : List Job) (seen : List String)
      (n : Nat) (out : List Job) (m : Nat),
      jobInv (recs, seen) → jobHarvest jobOk rounds recs seen n = some (out, m) →
      (out.map Job.job_id).Nodup := by
  intro rounds
  induction rounds with
  | nil => intro recs seen n out m _ h; simp [jobHarvest] at h
  | cons r rest ih =>
    intro recs seen n out m hinv h
    have hinv' : jobInv (jobRoundFold jobOk (recs, seen) r.extraction) :=
      jobFold_inv jobOk r.extraction (recs, seen) hinv
    simp only [jobHarvest] at h
    cases hnx : r.nextOk
    all_goals rw [hnx] at h
    · simp only [Bool.false_eq_true, if_false] at h
      cases h
      exact hinv'.1
    · simp only [if_true] at h
      exact ih _ _ (n + 1) out m hinv' h

/-! ### Append-only / prefix lemmas -/

lemma empStep_extends (uv : String → Bool)
    (st : List Employee × List String) (c : EmpCandidate) :
    st.1 <+: (empStep uv st c).1 ∧ st.2 <+: (empStep uv st c).2 := by
  unfold empStep
  split
  · split
    · exact ⟨⟨[mkEmployee c], rfl⟩, ⟨[c.url], rfl⟩⟩
    · exact ⟨List.prefix_refl _, List.prefix_refl _⟩
  · exact ⟨List.prefix_refl _, List.prefix_refl _⟩

lemma empFold_extends (uv : String → Bool) :
    ∀ (cs : List EmpCandidate) (st : List Employee × List String),
      st.1 <+: (empRoundFold uv st cs).1 ∧ st.2 <+: (empRoundFold uv st cs).2 := by
  intro cs
  induction cs with
  | nil => intro st; exact ⟨List.prefix_refl _, List.prefix_refl _⟩
  | cons c cs ih =>
    intro st
    have h1 := empStep_extends uv st c
    have h2 := ih (empStep uv st c)
    exact ⟨h1.1.trans h2.1, h1.2.trans h2.2⟩

lemma empHarvest_extends (uv : String → Bool) :
    ∀ (rounds : List EmpRound) (recs : List Employee) (seen : List String)
      (n : Nat) (out : List Employee) (m : Nat),
      empHarvest uv rounds recs seen n = some (out, m) → recs <+: out := by
  intro rounds
  induction rounds with
  | nil => intro recs seen n out m h; simp [empHarvest] at h
  | cons r rest ih =>
    intro recs seen n out m h
    have hpre := (empFold_extends uv r.extraction (recs, seen)).1
    simp only [empHarvest] at h
    by_cases hlen :
        (empRoundFold uv (recs, seen) r.extraction).1.length = recs.length
    · rw [if_pos hlen] at h
      cases h
      exact hpre
    · rw [if_neg hlen] at h
      cases hsm : r.showMore
      all_goals rw [hsm] at h
      · exact hpre.trans (ih _ _ (n + 1) out m h)
      · cases h; exact hpre
      · cases h; exact hpre

lemma jobStep_extends (jobOk : JobCandidate → Bool)
    (st : List Job × List String) (c : JobCandidate) :
    st.1 <+: (jobStep jobOk st c).1 ∧ st.2 <+: (jobStep jobOk st c).2 := by
  cases hfi : findJobId c.url with
  | none =>
    simp only [jobStep, hfi]
    exact ⟨List.prefix_refl _, List.prefix_refl _⟩
  | some id =>
    simp only [jobStep, hfi]
    split
    · exact ⟨List.prefix_refl _, List.prefix_refl _⟩
    · split
      · exact ⟨⟨[mkJob c id], rfl⟩, ⟨[id], rfl⟩⟩
      · exact ⟨List.prefix_refl _, List.prefix_refl _⟩

lemma jobFold_extends (jobOk : JobCandidate → Bool) :
    ∀ (cs : List JobCandidate) (st : List Job × List String),
      st.1 <+: (jobRoundFold jobOk st cs).1 ∧
        st.2 <+: (jobRoundFold jobOk st cs).2 := by
  intro cs
  induction cs with
  | nil => intro st; exact ⟨List.prefix_refl _, List.prefix_refl _⟩
  | cons c cs ih =>
    intro st
    have h1 := jobStep_extends jobOk st c
    have h2 := ih (jobStep jobOk st c)
    exact ⟨h1.1.trans h2.1, h1.2.trans h2.2⟩

lemma jobHarvest_extends (jobOk : JobCandidate → Bool) :
    ∀ (rounds : List JobRound) (recs : List Job) (seen : List String)
      (n : Nat) (out : List Job) (m : Nat),
      jobHarvest jobOk rounds recs seen n = some (out, m) → recs <+: out := by
  intro rounds
  induction rounds with
  | nil => intro recs seen n out m h; simp [jobHarvest] at h
  | cons r rest ih =>
    intro recs seen n out m h
    have hpre := (jobFold_extends jobOk r.extraction (recs, seen)).1
    simp only [jobHarvest] at h
    cases hnx : r.nextOk
    all_goals rw [hnx] at h
    · simp only [Bool.false_eq_true, if_false] at h
      cases h
      exact hpre
    · simp only [if_true] at h
      exact hpre.trans (ih _ _ (n + 1) out m h)

/-! ### Per-item failure lemmas -/

lemma empStep_invalid (uv : String → Bool) (st : List Employee × List String)
    (c : EmpCandidate) (h : uv c.url = false) : empStep uv st c = st := by
  unfold empStep
  split
  · rw [h]
    simp
  · rfl

lemma empFold_skip (uv : String → Bool) (bad : EmpCandidate)
    (h : uv bad.url = false) (pre post : List EmpCandidate)
    (st : List Employee × List String) :
    empRoundFold uv st (pre ++ bad :: post) = empRoundFold uv st (pre ++ post) := by
  unfold empRoundFold
  rw [List.foldl_append, List.foldl_append, List.foldl_cons,
    empStep_invalid uv _ bad h]

lemma empHarvest_congr (uv : String → Bool) (e1 e2 : List EmpCandidate)
    (he : ∀ st, empRoundFold uv st e1 = empRoundFold uv st e2) :
    ∀ (rounds1 : List EmpRound) (adv : AdvanceOutcome)
      (rounds2 : List EmpRound) (recs : List Employee) (seen : List String)
      (n : Nat),
      empHarvest uv (rounds1 ++ ⟨e1, adv⟩ :: rounds2) recs seen n =
        empHarvest uv (rounds1 ++ ⟨e2, adv⟩ :: rounds2) recs seen n := by
  intro rounds1
  induction rounds1 with
  | nil =>
    intro adv rounds2 recs seen n
    simp only [List.nil_append, empHarvest]
    rw [he (recs, seen)]
  | cons r rest ih =>
    intro adv rounds2 recs seen n
    simp only [List.cons_append, empHarvest]
    by_cases hlen :
        (empRoundFold uv (recs, seen) r.extraction).1.length = recs.length
    · rw [if_pos hlen, if_pos hlen]
    · rw [if_neg hlen, if_neg hlen]
      cases r.showMore
      · exact ih adv rounds2 _ _ (n + 1)
      · rfl
      · rfl

lemma jobStep_invalid (jobOk : JobCandidate → Bool)
    (st : List Job × List String) (c : JobCandidate)
    (h : findJobId c.url = none ∨ jobOk c = false) : jobStep jobOk st c = st := by
  cases hfi : findJobId c.url with
  | none => simp only [jobStep, hfi]
  | some id =>
    have hok : jobOk c = false := by
      rcases h with h | h
      · rw [hfi] at h; cases h
      · exact h
    simp only [jobStep, hfi, hok]
    split
    · rfl
    · simp

lemma jobFold_skip (jobOk : JobCandidate → Bool) (bad : JobCandidate)
    (h : findJobId bad.url = none ∨ jobOk bad = false)
    (pre post : List JobCandidate) (st : List Job × List String) :
    jobRoundFold jobOk st (pre ++ bad :: post) =
      jobRoundFold jobOk st (pre ++ post) := by
  unfold jobRoundFold
  rw [List.foldl_append, List.foldl_append, List.foldl_cons,
    jobStep_invalid jobOk _ bad h]

lemma jobHarvest_congr (jobOk : JobCandidate → Bool)
    (e1 e2 : List JobCandidate)
    (he : ∀ st, jobRoundFold jobOk st e1 = jobRoundFold jobOk st e2) :
    ∀ (rounds1 : List JobRound) (nx : Bool) (rounds2 : List JobRound)
      (recs : List Job) (seen : List String) (n : Nat),
      jobHarvest jobOk (rounds1 ++ ⟨e1, nx⟩ :: rounds2) recs seen n =
        jobHarvest jobOk (rounds1 ++ ⟨e2, nx⟩ :: rounds2) recs seen n := by
  intro rounds1
  induction rounds1 with
  | nil =>
    intro nx rounds2 recs seen n
    simp only [List.nil_append, jobHarvest]
    rw [he (recs, seen)]
  | cons r rest ih =>
    intro nx rounds2 recs seen n
    simp only [List.cons_append, jobHarvest]
    cases r.nextOk
    · rfl
    · simp only [if_true]
      exact ih nx rounds2 _ _ (n + 1)

/-- A candidate with a seen url is skipped without touching the state
(get_employees.py:76: `data["url"] not in scraped_employee_urls and ...`). -/
lemma empStep_seen (uv : String → Bool) (st : List Employee × List String)
    (c : EmpCandidate) (hmem : c.url ∈ st.2) : empStep uv st c = st := by
  unfold empStep
  rw [if_neg (fun hcon => hcon.1 hmem)]

/-- A candidate whose job id is already seen is skipped without touching the
state (get_job.py:180: `if not job_id or job_id in scraped_job_ids`). -/
lemma jobStep_seen (jobOk : JobCandidate → Bool) (st : List Job × List String)
    (c : JobCandidate) (id : String) (hfi : findJobId c.url = some id)
    (hmem : id ∈ st.2) : jobStep jobOk st c = st := by
  simp only [jobStep, hfi]
  rw [if_pos hmem]

/-! ## Concrete fixtures -/

/-- Oracle under which every url passes `HttpUrl` validation. -/
def uvAll : String → Bool := fun _ => true

/-- Oracle under which every `Job` construction succeeds. -/
def jobOkAll : JobCandidate → Bool := fun _ => true

/-- Oracle under which `HttpUrl` rejects exactly the url "bad". -/
def uvNotBad : String → Bool := fun s => !(s == "bad")

/-- The six distinct employee candidates of Scenario A. -/
def scenarioACands : List EmpCandidate :=
  [⟨"A", none, "u1"⟩, ⟨"B", none, "u2"⟩, ⟨"C", none, "u3"⟩,
    ⟨"D", none, "u4"⟩, ⟨"E", none, "u5"⟩, ⟨"F", none, "u6"⟩]

/-- Scenario A rounds: the visible set grows 2, 4, 6 with the "Show more"
click succeeding, then round 4 re-extracts the same 6 items. -/
def scenarioARounds : List EmpRound :=
  [⟨scenarioACands.take 2, AdvanceOutcome.clicked⟩,
    ⟨scenarioACands.take 4, AdvanceOutcome.clicked⟩,
    ⟨scenarioACands, AdvanceOutcome.clicked⟩,
    ⟨scenarioACands, AdvanceOutcome.clicked⟩]

/-- A job candidate whose url parses to job id "123". -/
def c1Cand : JobCandidate := ⟨"/jobs/view/123/?x=1", "T", none, none, none⟩

/-- A job-search script whose first round extracts nothing (so accepts no new
record) while the pagination "next" click still succeeds, and whose second
round reveals one job with "next" unavailable. -/
def c1Rounds : List JobRound := [⟨[], true⟩, ⟨[c1Cand], false⟩]

/-! ## Claim theorems: harvesters -/

/-- C1 counterexample: in `JobScraper.search` a round that accepts no new
record does not terminate the loop when the pagination "next" control is
available — the scripted run's first round accepts nothing (its fold leaves
the empty state unchanged), yet the harvest runs a second round and returns
the record found there: 1 record after 2 rounds, not 0 records after 1. -/
theorem job_loop_continues_after_no_new_records :
    jobRoundFold jobOkAll ([], []) ([] : List JobCandidate) = ([], []) ∧
      jobHarvest jobOkAll c1Rounds [] [] 0 = some ([mkJob c1Cand "123"], 2) :=
  ⟨rfl, by decide⟩

/-- C1 (amended): the no-new-records convergence test holds for the employee
harvester — `scrape_employees` stops and returns as soon as a round accepts
no new record, before and regardless of the "Show more" control's state —
while the job-search loop has no such test and stops exactly when the
pagination "next" control is unavailable. -/
theorem convergence_termination :
    (∀ (uv : String → Bool) (r : EmpRound) (rest : List EmpRound)
        (recs : List Employee) (seen : List String) (n : Nat),
        (empRoundFold uv (recs, seen) r.extraction).1.length = recs.length →
        empHarvest uv (r :: rest) recs seen n =
          some ((empRoundFold uv (recs, seen) r.extraction).1, n + 1))
    ∧ (∀ (jobOk : JobCandidate → Bool) (r : JobRound) (rest : List JobRound)
        (recs : List Job) (seen : List String) (n : Nat),
        r.nextOk = false →
        jobHarvest jobOk (r :: rest) recs seen n =
          some ((jobRoundFold jobOk (recs, seen) r.extraction).1, n + 1)) := by
  constructor
  · intro uv r rest recs seen n h
    simp only [empHarvest]
    rw [if_pos h]
  · intro jobOk r rest recs seen n h
    simp only [jobHarvest, h]
    simp

/-- C1 witness: a round that accepts nothing stops the employee loop even
though its "Show more" click would succeed; a round with no "next" stops the
job loop. -/
theorem convergence_termination_witness :
    empHarvest uvAll [⟨[], AdvanceOutcome.clicked⟩, ⟨[], AdvanceOutcome.clicked⟩]
        [] [] 0 = some ([], 1)
    ∧ jobHarvest jobOkAll [⟨[], false⟩] [] [] 0 = some ([], 1) :=
  ⟨convergence_termination.1 uvAll ⟨[], AdvanceOutcome.clicked⟩
      [⟨[], AdvanceOutcome.clicked⟩] [] [] 0 rfl,
    convergence_termination.2 jobOkAll ⟨[], false⟩ [] [] [] 0 rfl⟩

/-- C2: no harvest run returns two records with an equal dedup key (employee
profile url, or job id); a candidate whose key is already in the seen set is
skipped entirely, leaving records and seen set untouched. -/
theorem no_duplicate_keys :
    (∀ (uv : String → Bool) (kw : Option String) (s c : StepOutcome)
        (rounds : List EmpRound) (out : List Employee) (m : Nat),
        scrape_employees uv kw s c rounds = some (out, m) →
        (out.map Employee.profile_url).Nodup)
    ∧ (∀ (jobOk : JobCandidate → Bool) (f l : StepOutcome)
        (rounds : List JobRound) (out : List Job) (m : Nat),
        jobSearch jobOk f l rounds = some (out, m) →
        (out.map Job.job_id).Nodup)
    ∧ (∀ (uv : String → Bool) (st : List Employee × List String)
        (c : EmpCandidate), c.url ∈ st.2 → empStep uv st c = st)
    ∧ (∀ (jobOk : JobCandidate → Bool) (st : List Job × List String)
        (c : JobCandidate) (id : String), findJobId c.url = some id →
        id ∈ st.2 → jobStep jobOk st c = st) := by
  have hbase : empInv ([], []) := ⟨List.nodup_nil, by simp⟩
  have jbase : jobInv ([], []) := ⟨List.nodup_nil, by simp⟩
  refine ⟨?_, ?_, empStep_seen, jobStep_seen⟩
  · intro uv kw s c rounds out m h
    cases kw with
    | none =>
      cases c with
      | timeout => cases h; simp
      | ok => exact empHarvest_nodup uv rounds [] [] 0 out m hbase h
    | some k =>
      cases s with
      | timeout => cases h; simp
      | ok =>
        cases c with
        | timeout => cases h; simp
        | ok => exact empHarvest_nodup uv rounds [] [] 0 out m hbase h
  · intro jobOk f l rounds out m h
    cases f with
    | timeout => cases h; simp
    | ok =>
      cases l with
      | timeout => cases h; simp
      | ok => exact jobHarvest_nodup jobOk rounds [] [] 0 out m jbase h

/-- C2 witness: a run whose extraction repeats one candidate twice returns it
once, and a seen-key candidate leaves a concrete state unchanged. -/
theorem no_duplicate_keys_witness :
    (([mkEmployee ⟨"A", none, "u1"⟩].map Employee.profile_url).Nodup)
    ∧ empStep uvAll ([mkEmployee ⟨"A", none, "u1"⟩], ["u1"]) ⟨"A", none, "u1"⟩ =
        ([mkEmployee ⟨"A", none, "u1"⟩], ["u1"])
    ∧ ([mkJob c1Cand "123"].map Job.job_id).Nodup :=
  ⟨no_duplicate_keys.1 uvAll none StepOutcome.ok StepOutcome.ok
      [⟨[⟨"A", none, "u1"⟩, ⟨"A", none, "u1"⟩], AdvanceOutcome.notVisible⟩]
      [mkEmployee ⟨"A", none, "u1"⟩] 1 (by decide),
    no_duplicate_keys.2.2.1 uvAll ([mkEmployee ⟨"A", none, "u1"⟩], ["u1"])
      ⟨"A", none, "u1"⟩ (by decide),
    no_duplicate_keys.2.1 jobOkAll StepOutcome.ok StepOutcome.ok [⟨[c1Cand], false⟩]
      [mkJob c1Cand "123"] 1 (by decide)⟩

/-- C5: when a keyword is supplied and the search step fails (its bounded
wait times out), `scrape_employees` returns the empty list immediately: zero
loop rounds, whatever the page would have yielded — no unfiltered fallback. -/
theorem failed_filter_returns_empty :
    ∀ (uv : String → Bool) (kw : String) (containerStep : StepOutcome)
      (rounds : List EmpRound),
      scrape_employees uv (some kw) StepOutcome.timeout containerStep rounds =
        some ([], 0) :=
  fun _ _ _ _ => rfl

/-- C6: within one harvest run records are only appended — the records held
before any suffix of the run form a prefix of the final result, so a record's
position never changes once accepted; the seen-key set only grows; and a
candidate whose key is already seen is not re-evaluated (the state is
untouched).  Stated for both harvesters. -/
theorem first_discovery_order :
    (∀ (uv : String → Bool) (rounds : List EmpRound) (recs : List Employee)
        (seen : List String) (n : Nat) (out : List Employee) (m : Nat),
        empHarvest uv rounds recs seen n = some (out, m) → recs <+: out)
    ∧ (∀ (uv : String → Bool) (st : List Employee × List String)
        (cs : List EmpCandidate),
        st.1 <+: (empRoundFold uv st cs).1 ∧ st.2 <+: (empRoundFold uv st cs).2)
    ∧ (∀ (uv : String → Bool) (st : List Employee × List String)
        (c : EmpCandidate), c.url ∈ st.2 → empStep uv st c = st)
    ∧ (∀ (jobOk : JobCandidate → Bool) (rounds : List JobRound)
        (recs : List Job) (seen : List String) (n : Nat) (out : List Job)
        (m : Nat), jobHarvest jobOk rounds recs seen n = some (out, m) →
        recs <+: out)
    ∧ (∀ (jobOk : JobCandidate → Bool) (st : List Job × List String)
        (cs : List JobCandidate),
        st.1 <+: (jobRoundFold jobOk st cs).1 ∧
          st.2 <+: (jobRoundFold jobOk st cs).2)
    ∧ (∀ (jobOk : JobCandidate → Bool) (st : List Job × List String)
        (c : JobCandidate) (id : String), findJobId c.url = some id →
        id ∈ st.2 → jobStep jobOk st c = st) :=
  ⟨empHarvest_extends, fun uv st cs => empFold_extends uv cs st,
    empStep_seen, jobHarvest_extends,
    fun jobOk st cs => jobFold_extends jobOk cs st, jobStep_seen⟩

/-- C6 witness: a two-round run whose first round accepts one record keeps it
at the front of the final result. -/
theorem first_discovery_order_witness :
    [mkEmployee ⟨"A", none, "u1"⟩] <+:
      [mkEmployee ⟨"A", none, "u1"⟩, mkEmployee ⟨"B", none, "u2"⟩] :=
  first_discovery_order.1 uvAll
    [⟨[⟨"B", none, "u2"⟩], AdvanceOutcome.notVisible⟩]
    [mkEmployee ⟨"A", none, "u1"⟩] ["u1"] 1
    [mkEmployee ⟨"A", none, "u1"⟩, mkEmployee ⟨"B", none, "u2"⟩] 2 (by decide)

/-- C8: a candidate whose record construction fails (url rejected by
`HttpUrl`, or no parsable job id) is discarded alone: the whole harvest run
over any script containing it returns exactly what the same run without that
candidate returns — the round continues and no error is surfaced. -/
theorem per_item_failure_discards_only_item :
    (∀ (uv : String → Bool) (bad : EmpCandidate), uv bad.url = false →
      ∀ (pre post : List EmpCandidate) (rounds1 : List EmpRound)
        (adv : AdvanceOutcome) (rounds2 : List EmpRound)
        (recs : List Employee) (seen : List String) (n : Nat),
        empHarvest uv (rounds1 ++ ⟨pre ++ bad :: post, adv⟩ :: rounds2)
            recs seen n =
          empHarvest uv (rounds1 ++ ⟨pre ++ post, adv⟩ :: rounds2) recs seen n)
    ∧ (∀ (jobOk : JobCandidate → Bool) (bad : JobCandidate),
        findJobId bad.url = none ∨ jobOk bad = false →
        ∀ (pre post : List JobCandidate) (rounds1 : List JobRound) (nx : Bool)
          (rounds2 : List JobRound) (recs : List Job) (seen : List String)
          (n : Nat),
          jobHarvest jobOk (rounds1 ++ ⟨pre ++ bad :: post, nx⟩ :: rounds2)
              recs seen n =
            jobHarvest jobOk (rounds1 ++ ⟨pre ++ post, nx⟩ :: rounds2)
              recs seen n) := by
  constructor
  · intro uv bad hbad pre post rounds1 adv rounds2 recs seen n
    exact empHarvest_congr uv _ _ (empFold_skip uv bad hbad pre post)
      rounds1 adv rounds2 recs seen n
  · intro jobOk bad hbad pre post rounds1 nx rounds2 recs seen n
    exact jobHarvest_congr jobOk _ _ (jobFold_skip jobOk bad hbad pre post)
      rounds1 nx rounds2 recs seen n

/-- C8 witness: a malformed-url candidate sandwiched between two good ones
changes nothing about the run's outcome. -/
theorem per_item_failure_witness :
    empHarvest uvNotBad
        [⟨[⟨"A", none, "u1"⟩, ⟨"X", none, "bad"⟩, ⟨"B", none, "u2"⟩],
          AdvanceOutcome.notVisible⟩] [] [] 0 =
      empHarvest uvNotBad
        [⟨[⟨"A", none, "u1"⟩, ⟨"B", none, "u2"⟩], AdvanceOutcome.notVisible⟩]
        [] [] 0 :=
  per_item_failure_discards_only_item.1 uvNotBad ⟨"X", none, "bad"⟩ (by decide)
    [⟨"A", none, "u1"⟩] [⟨"B", none, "u2"⟩] [] AdvanceOutcome.notVisible [] [] [] 0

/-- C9 (Scenario A): with rounds revealing 2, 4, 6 items (2 new each round)
and a fourth round re-extracting the same 6 keys, the employee harvest
returns exactly 6 records and the loop runs exactly 4 rounds. -/
theorem scenario_a_six_records_four_rounds :
    (scrape_employees uvAll none StepOutcome.ok StepOutcome.ok
        scenarioARounds).map (fun p => (p.1.length, p.2)) = some (6, 4) := by
  decide

example : findJobId "/jobs/view/12345/?refId=x" = some "12345" := by decide
example : findJobId "/jobs/view/x987/" = none := by decide
example : findJobId "/jobs/view/987" = none := by decide
example : stripQuery "/jobs/view/1/?q=2" = "/jobs/view/1/" := by decide

end Scrapedin
